import Mathlib

/-!
Shallow embedding of `src/backtrader/brokers/vcbroker.py` (the VisualChart
broker adapter `VCBroker`), for checking the natural-language specification
against the code.

Conventions of the embedding:
* Python floats (prices, sizes, cash) are modelled as rationals `ℚ`.
* Venue order identifiers are `Nat`.
* Python dictionaries (`self.orderbyid`, `self.positions`) are association
  lists with explicit lookup / replace / insert operations.
* The notification deque `self.notifs` is a `List (Option BTOrder)`:
  `notify` appends at the tail, `get_notification` pops at the head;
  `none` is the tick-boundary sentinel appended by `next`.
* Code that can raise returns `Except VCError _`; a Python method that
  mutates `self` becomes a function `BrokerState → ... → BrokerState`.
* External collaborators that are not part of this repository's source
  (the ComTrader COM objects, `vcstore`) appear only through the values
  they hand the adapter (event payloads, the result of `SendOrder`).
-/

/-- Errors the embedded Python code can raise. -/
inductive VCError where
  | indexError
  | attributeError
  deriving DecidableEq, Repr

/-- Venue order-type codes (`vcctmod.OT_*`). -/
inductive OTCode where
  | Market
  | Limit
  | StopMarket
  | StopLimit
  deriving DecidableEq, Repr

/-- Venue order-side codes (`vcctmod.OS_*`). -/
inductive OSCode where
  | Buy
  | Sell
  deriving DecidableEq, Repr

/-- Venue time-restriction codes (`vcctmod.TR_*`). -/
inductive TRCode where
  | NoRestriction
  | Date
  | CloseAuction
  | Session
  deriving DecidableEq, Repr

/-- Venue volume-restriction codes (`vcctmod.VR_*`). -/
inductive VRCode where
  | NoRestriction
  deriving DecidableEq, Repr

/-- Engine order sides (`Order.Buy` / `Order.Sell` of the engine API). -/
inductive OrdType where
  | Buy
  | Sell
  deriving DecidableEq, Repr

/-- Engine execution kinds (`Order.Market`, `Order.Close`, `Order.Limit`,
`Order.Stop`, `Order.StopLimit`), the keys of `self._otypes`. -/
inductive ExecType where
  | Market
  | Close
  | Limit
  | Stop
  | StopLimit
  deriving DecidableEq, Repr

/-- Engine order lifecycle statuses. -/
inductive OrderStatus where
  | Created
  | Submitted
  | Accepted
  | PartiallyFilled
  | Completed
  | Cancelled
  deriving DecidableEq, Repr

/-- The `valid` argument of `_makeorder`, classified the way the source's
`isinstance` chain classifies it: `None`, a `date`/`datetime` (both take the
same branch), a `timedelta`, or any other value (e.g. an integer), which
falls to the `elif not self.valid` branch. Dates and durations are `ℚ`. -/
inductive Validity where
  | vnone
  | vdate (d : ℚ)
  | vdelta (t : ℚ)
  | vother
  deriving DecidableEq, Repr

/-- Modelled from the spec: the engine `Order` class's distinguished
"one trading day" duration constant (`Order.DAY`), compared against a
`timedelta` validity in `_makeorder`; the `Order` class itself is not in
`src/`. Its concrete value is irrelevant, only equality with it is tested. -/
def OrderDAY : ℚ := 1

/-- A commission strategy: the four methods of the attached `comminfo`
object that `OnExecutedOrder` calls.  The `CommInfoBase` class is not in
`src/`; per the spec it is a pluggable calculator, so the methods are
abstract function fields. -/
structure CommInfo where
  getoperationcost : ℚ → ℚ → ℚ
  getcommission : ℚ → ℚ → ℚ
  profitandloss : ℚ → ℚ → ℚ → ℚ
  getvaluesize : ℚ → ℚ → ℚ

/-- A degenerate commission strategy, used to populate concrete states. -/
def ciZero : CommInfo :=
  { getoperationcost := fun _ _ => 0
    getcommission := fun _ _ => 0
    profitandloss := fun _ _ _ => 0
    getvaluesize := fun _ _ => 0 }

/-- A per-instrument position: signed size and average entry price. -/
structure Position where
  size : ℚ
  price : ℚ
  deriving DecidableEq, Repr

/-- Result quadruple of `Position.update`, `(psize, pprice, opened, closed)`
in the source's naming. -/
structure UpdateResult where
  psize : ℚ
  pprice : ℚ
  opened : ℚ
  closed : ℚ
  deriving DecidableEq, Repr

/-- Modelled from the spec: `Position.update` (the `Position` class is not
in `src/`).  Spec §4.1: `closed` is the portion of the signed delta that
reduces the existing position toward zero (magnitude-bounded by the current
size, sign-opposite to it); `opened` is the remainder; the average price is
recomputed by weighted-average blending only over the opened portion and is
left unchanged on reduction. -/
def Position.update (pos : Position) (size price : ℚ) : UpdateResult :=
  if 0 ≤ pos.size * size then
    let newsize := pos.size + size
    let newprice :=
      if newsize = 0 then pos.price
      else (pos.size * pos.price + size * price) / newsize
    { psize := newsize, pprice := newprice, opened := size, closed := 0 }
  else if abs size ≤ abs pos.size then
    { psize := pos.size + size, pprice := pos.price, opened := 0, closed := size }
  else
    { psize := pos.size + size, pprice := price,
      opened := pos.size + size, closed := -pos.size }

/-- One executed-fill record appended to an order by `execute`, carrying the
arguments of the source's `border.execute(...)` call in order. -/
structure ExecRecord where
  dt : ℚ
  size : ℚ
  price : ℚ
  closed : ℚ
  closedvalue : ℚ
  closedcomm : ℚ
  opened : ℚ
  openedvalue : ℚ
  openedcomm : ℚ
  margin : ℚ
  pnl : ℚ
  psize : ℚ
  pprice : ℚ

/-- The engine-native order held by the adapter: immutable intent fields
plus the mutable lifecycle status, executed-fill log, attached commission
strategy and venue identifier.  `tradename` and `dt` stand for
`order.data._tradename` and `order.data.datetime[0]`. -/
structure BTOrder where
  ordtype : OrdType
  status : OrderStatus
  comminfo : CommInfo
  tradename : String
  dt : ℚ
  execs : List ExecRecord
  vcorder : Option Nat

/-- `order.issell()`. -/
def BTOrder.issell (o : BTOrder) : Bool :=
  decide (o.ordtype = OrdType.Sell)

/-- Modelled from the spec: the engine `Order` class's status-setting
methods `submit` / `accept` / `partial` / `completed` / `cancel` (the class
is not in `src/`).  Per the spec's §4.6 event rules they overwrite the
status unconditionally on a registry hit ("transition to Accepted",
"Set status to PartiallyFilled if partial else Completed",
"transition to Cancelled"). -/
def BTOrder.setStatus (o : BTOrder) (st : OrderStatus) : BTOrder :=
  { o with status := st }

/-- Modelled from the spec: `order.execute(...)` (the `Order` class is not
in `src/`); spec §4.6 step 4: append a fill entry carrying the computed
figures. -/
def BTOrder.execute (o : BTOrder) (r : ExecRecord) : BTOrder :=
  { o with execs := o.execs ++ [r] }

/-- Association-list lookup, first match wins (Python `dict` access). -/
def alookup {α β : Type} [DecidableEq α] : List (α × β) → α → Option β
  | [], _ => none
  | p :: rest, k => if p.1 = k then some p.2 else alookup rest k

/-- Association-list store (Python `dict` assignment): replace the value at
an existing key, or append a fresh entry. -/
def asetD {α β : Type} [DecidableEq α] (l : List (α × β)) (k : α) (v : β) :
    List (α × β) :=
  match l with
  | [] => [(k, v)]
  | p :: rest => if p.1 = k then (k, v) :: rest else p :: asetD rest k v

/-- Account data of the ComTrader `Accounts` collection entries. -/
structure VCBalance where
  Cash : ℚ
  NetWorth : ℚ

/-- An entry of `trader.Accounts`. -/
structure VCAccount where
  Account : String
  Balance : VCBalance

/-- The adapter state: the mutable fields of `VCBroker` that the claims
talk about.  `resolveComm` is modelled from the spec: §4.2's commission
resolver (`getcommissioninfo` relies on `BrokerBase` state and venue
metadata that are not in `src/`; per the spec it never fails, so it is a
total function attached to the state). -/
structure BrokerState where
  acc_name : Option String
  cash : ℚ
  value : ℚ
  positions : List (String × Position)
  orderbyid : List (Nat × BTOrder)
  notifs : List (Option BTOrder)
  resolveComm : String → CommInfo

/-- `self.orderbyid[oid]` as an `Option` (a `KeyError` is the `none` case
that the handlers catch and turn into an early `return`). -/
def lookupOrder (s : BrokerState) (oid : Nat) : Option BTOrder :=
  alookup s.orderbyid oid

/-- Store an order under its venue identifier (`self.orderbyid[oid] = o`;
also stands for the in-place mutation of the registered order object, which
in Python is shared between the registry and the local variable). -/
def setOrder (s : BrokerState) (oid : Nat) (o : BTOrder) : BrokerState :=
  { s with orderbyid := asetD s.orderbyid oid o }

/-- `self.positions[tradename]`: `defaultdict(Position)` read, yielding a
zero position when the key is absent. -/
def getPositionFor (s : BrokerState) (tradename : String) : Position :=
  (alookup s.positions tradename).getD { size := 0, price := 0 }

/-- Store back the (in Python, in-place mutated) position. -/
def setPosition (s : BrokerState) (tradename : String) (p : Position) :
    BrokerState :=
  { s with positions := asetD s.positions tradename p }

/-- `self.notify(order)`: append a cloned snapshot of the order. -/
def notifyOrder (s : BrokerState) (o : BTOrder) : BrokerState :=
  { s with notifs := s.notifs ++ [some o] }

/-- `self.next()`: append the tick-boundary `None` sentinel. -/
def brokerNext (s : BrokerState) : BrokerState :=
  { s with notifs := s.notifs ++ [Option.none] }

/-- `self.get_notification()`: `self.notifs.popleft()`, which raises
`IndexError` on an empty deque. -/
def get_notification (s : BrokerState) :
    Except VCError (Option BTOrder × BrokerState) :=
  match s.notifs with
  | [] => Except.error VCError.indexError
  | n :: rest => Except.ok (n, { s with notifs := rest })

/-- The payload fields of a ComTrader order event that the handlers read:
`Order.OrderId`, `Order.Price`, `Order.Volume`. -/
structure VCOrderEvent where
  OrderId : Nat
  Price : ℚ
  Volume : ℚ

/-- `VCBroker.OnCancelledOrder` (source lines 377-385). -/
def OnCancelledOrder (s : BrokerState) (ev : VCOrderEvent) : BrokerState :=
  match lookupOrder s ev.OrderId with
  | none => s
  | some border =>
    let border1 := border.setStatus OrderStatus.Cancelled
    notifyOrder (setOrder s ev.OrderId border1) border1

/-- `VCBroker.OnOrderInMarket` (source lines 436-445). -/
def OnOrderInMarket (s : BrokerState) (ev : VCOrderEvent) : BrokerState :=
  match lookupOrder s ev.OrderId with
  | none => s
  | some border =>
    let border1 := border.setStatus OrderStatus.Accepted
    notifyOrder (setOrder s ev.OrderId border1) border1

/-- `VCBroker.OnExecutedOrder` (source lines 393-434): look the order up
(silent return on a miss), resolve the signed fill size, update the
position, compute the monetary figures through the order's attached
commission strategy, append the execution, set the status from the
`partial` flag, and notify. -/
def OnExecutedOrder (s : BrokerState) (ev : VCOrderEvent) (part : Bool) :
    BrokerState :=
  match lookupOrder s ev.OrderId with
  | none => s
  | some border =>
    let price := ev.Price
    let size := if border.issell then -ev.Volume else ev.Volume
    let position := getPositionFor s border.tradename
    let pprice_orig := position.price
    let u := position.update size price
    let comminfo := border.comminfo
    let closedvalue := comminfo.getoperationcost u.closed pprice_orig
    let closedcomm := comminfo.getcommission u.closed price
    let openedvalue := comminfo.getoperationcost u.opened price
    let openedcomm := comminfo.getcommission u.opened price
    let pnl := comminfo.profitandloss (-u.closed) pprice_orig price
    let margin := comminfo.getvaluesize size price
    let border1 := border.execute
      { dt := border.dt, size := size, price := price,
        closed := u.closed, closedvalue := closedvalue, closedcomm := closedcomm,
        opened := u.opened, openedvalue := openedvalue, openedcomm := openedcomm,
        margin := margin, pnl := pnl, psize := u.psize, pprice := u.pprice }
    let border2 := border1.setStatus
      (if part then OrderStatus.PartiallyFilled else OrderStatus.Completed)
    let s1 := setPosition s border.tradename { size := u.psize, price := u.pprice }
    let s2 := setOrder s1 ev.OrderId border2
    notifyOrder s2 border2

/-- `VCBroker.OnTotalExecutedOrder`. -/
def OnTotalExecutedOrder (s : BrokerState) (ev : VCOrderEvent) : BrokerState :=
  OnExecutedOrder s ev false

/-- `VCBroker.OnPartialExecutedOrder`. -/
def OnPartialExecutedOrder (s : BrokerState) (ev : VCOrderEvent) : BrokerState :=
  OnExecutedOrder s ev true

/-- `VCBroker.OnChangedBalance` (source lines 361-370): skip events for
other accounts, otherwise copy cash and net worth from the matching
`trader.Accounts` entry. -/
def OnChangedBalance (s : BrokerState) (accounts : List VCAccount)
    (acct : String) : BrokerState :=
  if s.acc_name = none ∨ ¬ s.acc_name = some acct then s
  else
    match accounts.find? (fun a => decide (a.Account = acct)) with
    | some a => { s with cash := a.Balance.Cash, value := a.Balance.NetWorth }
    | none => s

/-- `VCBroker.OnModifiedOrder`: explicit no-op. -/
def OnModifiedOrder (s : BrokerState) (_ev : VCOrderEvent) : BrokerState := s

/-- `VCBroker.OnNewOrderLocation`: explicit no-op. -/
def OnNewOrderLocation (s : BrokerState) (_ev : VCOrderEvent) : BrokerState := s

/-- `VCBroker.OnChangedOpenPositions`: explicit no-op (position snapshots
are deliberately unused for accounting). -/
def OnChangedOpenPositions (s : BrokerState) (_acct : String) : BrokerState := s

/-- A value stored in an attribute of the venue COM order request. -/
inductive PyVal where
  | vstr (s : String)
  | num (q : ℚ)
  | pdate (d : ℚ)
  | trc (t : TRCode)
  | otc (t : OTCode)
  | osc (t : OSCode)
  | vrc (t : VRCode)
  | none
  deriving DecidableEq, Repr

/-- A Python object seen as its attribute dictionary: the COM order request
built by `_makeorder` is a fixed-schema object, so `setattr` only ever
replaces the value of an existing attribute and `hasattr` tests membership
of the schema. -/
def PyObj : Type := List (String × PyVal)

/-- `getattr(o, k)` as an `Option` (the value, if the attribute exists). -/
def pyGetattr (o : PyObj) (k : String) : Option PyVal :=
  alookup o k

/-- `hasattr(o, k)`. -/
def pyHasattr (o : PyObj) (k : String) : Bool :=
  (pyGetattr o k).isSome

/-- `setattr(o, k, v)` on a fixed-schema COM object: replace the value of
the attribute named `k` wherever it occurs; the attribute set of the object
is never changed. -/
def pySetattr (o : PyObj) (k : String) (v : PyVal) : PyObj :=
  o.map (fun p => if p.1 = k then (k, v) else p)

/-- The `for k in kwargs: if hasattr(order, k): setattr(order, k, kwargs[k])`
loop of `_makeorder` (source lines 284-287), over an insertion-ordered list
of keyword arguments. -/
def applyKwargs (o : PyObj) (kwargs : List (String × PyVal)) : PyObj :=
  kwargs.foldl (fun acc kv => if pyHasattr acc kv.1 then pySetattr acc kv.1 kv.2 else acc) o

/-- The last value supplied for key `k` in a keyword-argument list (the one
a left-to-right sequence of assignments leaves in place). -/
def lastVal : List (String × PyVal) → String → Option PyVal
  | [], _ => Option.none
  | kv :: rest, k =>
    match lastVal rest k with
    | some v => some v
    | Option.none => if kv.1 = k then some kv.2 else Option.none

/-- Modelled from the spec: the venue order request schema — a fresh
`vcctmod.Order()` COM object with the attributes the adapter writes
(§6: account, instrument code, order-type code, side code, volume, price,
stop price, volume-restriction code, time-restriction code, optional
valid-until date); `vcctmod` is an external COM type library, not in
`src/`. -/
def vcNewOrder : PyObj :=
  [("Account", PyVal.none), ("SymbolCode", PyVal.none),
   ("OrderType", PyVal.none), ("OrderSide", PyVal.none),
   ("VolumeRestriction", PyVal.none), ("HideVolume", PyVal.none),
   ("MinVolume", PyVal.none), ("UserOrderId", PyVal.none),
   ("ExtendedInfo", PyVal.none), ("Volume", PyVal.none),
   ("StopPrice", PyVal.none), ("Price", PyVal.none),
   ("ValidDate", PyVal.none), ("TimeRestriction", PyVal.none)]

/-- `self._otypes`: engine execution kind to venue order-type code. -/
def otypes : ExecType → OTCode
  | ExecType.Market => OTCode.Market
  | ExecType.Close => OTCode.Market
  | ExecType.Limit => OTCode.Limit
  | ExecType.Stop => OTCode.StopMarket
  | ExecType.StopLimit => OTCode.StopLimit

/-- `self._osides`: engine side to venue side code. -/
def osides : OrdType → OSCode
  | OrdType.Buy => OSCode.Buy
  | OrdType.Sell => OSCode.Sell

/-- An optional price written into an attribute (`None` stays `None`). -/
def optQ : Option ℚ → PyVal
  | some q => PyVal.num q
  | Option.none => PyVal.none

/-- Python's `price or plimit`: `price` if it is truthy (not `None` and not
zero), otherwise `plimit` as-is. -/
def pyOrQ (price plimit : Option ℚ) : PyVal :=
  match price with
  | some p => if p = 0 then optQ plimit else PyVal.num p
  | Option.none => optQ plimit

/-- The time-restriction / valid-until stage of `_makeorder` (source lines
265-282): a close order forces the close-auction restriction regardless of
`valid`; otherwise `None`, `date`/`datetime` and `timedelta` validities map
to their restriction codes, and any other value falls to the source's
`elif not self.valid` branch, which reads an attribute `valid` that
`VCBroker` (and its base) never defines and therefore raises
`AttributeError`.  Returns the `(TimeRestriction, ValidDate)` pair
(`ValidDate` starts as `None` and is only set in the date branches). -/
def timeRestOf (exectype : ExecType) (valid : Validity) (now : ℚ) :
    Except VCError (TRCode × PyVal) :=
  if exectype = ExecType.Close then
    Except.ok (TRCode.CloseAuction, PyVal.none)
  else
    match valid with
    | Validity.vnone => Except.ok (TRCode.NoRestriction, PyVal.none)
    | Validity.vdate d => Except.ok (TRCode.Date, PyVal.pdate d)
    | Validity.vdelta t =>
        if t = OrderDAY then Except.ok (TRCode.Session, PyVal.none)
        else Except.ok (TRCode.Date, PyVal.pdate (now + t))
    | Validity.vother => Except.error VCError.attributeError

/-- The `StopPrice` attribute after the execution-kind branch of
`_makeorder` (source lines 251-263): defaulted to `0.0`, overwritten with
`price` for stop and stop-limit orders. -/
def stopPriceOf (exectype : ExecType) (price : Option ℚ) : PyVal :=
  match exectype with
  | ExecType.Market => PyVal.num 0
  | ExecType.Close => PyVal.num 0
  | ExecType.Limit => PyVal.num 0
  | ExecType.Stop => optQ price
  | ExecType.StopLimit => optQ price

/-- The `Price` attribute after the execution-kind branch of `_makeorder`
(source lines 251-263): defaulted to `0.0`, overwritten with
`price or plimit` for limit orders and with `plimit` for stop-limit
orders. -/
def priceOf (exectype : ExecType) (price plimit : Option ℚ) : PyVal :=
  match exectype with
  | ExecType.Market => PyVal.num 0
  | ExecType.Close => PyVal.num 0
  | ExecType.Limit => pyOrQ price plimit
  | ExecType.Stop => PyVal.num 0
  | ExecType.StopLimit => optQ plimit

/-- `VCBroker._makeorder` (source lines 226-289): build the venue order
request from the engine order intent.  `now` stands for `datetime.now()`.
The source assigns the request's attributes one by one (with `StopPrice`
and `Price` first defaulted to `0.0` and then overwritten by the
execution-kind branch); the embedding records the final value of each
attribute directly, and finishes with the keyword-extras loop.  A raised
`AttributeError` from the validity stage propagates, so the whole
translation returns `Except`. -/
def makeorder (acc_name : Option String) (ordtype : OrdType)
    (tradename : String) (size : ℚ) (price plimit : Option ℚ)
    (exectype : ExecType) (valid : Validity) (tradeid : Nat)
    (kwargs : List (String × PyVal)) (now : ℚ) : Except VCError PyObj :=
  match timeRestOf exectype valid now with
  | Except.error e => Except.error e
  | Except.ok tr =>
    Except.ok (applyKwargs
      [("Account",
        match acc_name with | some a => PyVal.vstr a | Option.none => PyVal.none),
       ("SymbolCode", PyVal.vstr tradename),
       ("OrderType", PyVal.otc (otypes exectype)),
       ("OrderSide", PyVal.osc (osides ordtype)),
       ("VolumeRestriction", PyVal.vrc VRCode.NoRestriction),
       ("HideVolume", PyVal.num 0),
       ("MinVolume", PyVal.num 0),
       ("UserOrderId", PyVal.vstr ""),
       ("ExtendedInfo",
        PyVal.vstr (if tradeid ≠ 0 then "TradeId " ++ toString tradeid else "")),
       ("Volume", PyVal.num (abs size)),
       ("StopPrice", stopPriceOf exectype price),
       ("Price", priceOf exectype price plimit),
       ("ValidDate", tr.2),
       ("TimeRestriction", PyVal.trc tr.1)] kwargs)

/-- `order.submit(self)`: mark the engine order submitted.  Modelled from
the spec (§4.5 step: mark order status "submitted"); the `Order` class is
not in `src/`. -/
def BTOrder.submit (o : BTOrder) : BTOrder :=
  o.setStatus OrderStatus.Submitted

/-- `VCBroker.submit` (source lines 291-308): mark submitted, send to the
venue, attach the resolved commission strategy and venue identifier,
register under the returned identifier, notify.  The venue's `SendOrder`
is external (`vcstore` / ComTrader, not in `src/`); per the spec's §6
interface it returns a venue-assigned identifier or fails, so it is passed
in as `sendOrder : PyObj → Except VCError Nat`.  A raised error propagates
before any broker field is written, so the returned state is the input
state in that case. -/
def brokerSubmit (s : BrokerState) (order : BTOrder) (vco : PyObj)
    (sendOrder : PyObj → Except VCError Nat) :
    Except VCError BTOrder × BrokerState :=
  let order1 := order.submit
  match sendOrder vco with
  | Except.error e => (Except.error e, s)
  | Except.ok oid =>
    let order2 := { order1 with
                    vcorder := some oid,
                    comminfo := s.resolveComm order1.tradename }
    (Except.ok order2,
     notifyOrder { s with orderbyid := asetD s.orderbyid oid order2 } order2)

/-- The `data` argument of `buy`/`sell`: the fields the adapter reads. -/
structure VCData where
  tradename : String
  dt : ℚ

/-- `VCBroker.buy` (source lines 310-325): create the engine order, build
the venue request, submit.  A translation error propagates and leaves the
broker state untouched. -/
def brokerBuy (s : BrokerState) (data : VCData) (size : ℚ)
    (price plimit : Option ℚ) (exectype : ExecType) (valid : Validity)
    (tradeid : Nat) (kwargs : List (String × PyVal)) (now : ℚ)
    (sendOrder : PyObj → Except VCError Nat) :
    Except VCError BTOrder × BrokerState :=
  let order : BTOrder :=
    { ordtype := OrdType.Buy, status := OrderStatus.Created,
      comminfo := ciZero, tradename := data.tradename, dt := data.dt,
      execs := [], vcorder := Option.none }
  match makeorder s.acc_name order.ordtype data.tradename size price plimit
      exectype valid tradeid kwargs now with
  | Except.error e => (Except.error e, s)
  | Except.ok vco => brokerSubmit s order vco sendOrder

/-- `VCBroker.sell` (source lines 327-342), mirroring `buy`. -/
def brokerSell (s : BrokerState) (data : VCData) (size : ℚ)
    (price plimit : Option ℚ) (exectype : ExecType) (valid : Validity)
    (tradeid : Nat) (kwargs : List (String × PyVal)) (now : ℚ)
    (sendOrder : PyObj → Except VCError Nat) :
    Except VCError BTOrder × BrokerState :=
  let order : BTOrder :=
    { ordtype := OrdType.Sell, status := OrderStatus.Created,
      comminfo := ciZero, tradename := data.tradename, dt := data.dt,
      execs := [], vcorder := Option.none }
  match makeorder s.acc_name order.ordtype data.tradename size price plimit
      exectype valid tradeid kwargs now with
  | Except.error e => (Except.error e, s)
  | Except.ok vco => brokerSubmit s order vco sendOrder

/-- A venue callback event carrying an order identifier, as dispatched by
the ComTrader thread to the adapter's handlers. -/
inductive VCEvent where
  | inMarket (ev : VCOrderEvent)
  | cancelledEv (ev : VCOrderEvent)
  | execd (ev : VCOrderEvent) (part : Bool)

/-- Dispatch one venue callback to its handler. -/
def applyEvent (s : BrokerState) : VCEvent → BrokerState
  | VCEvent.inMarket ev => OnOrderInMarket s ev
  | VCEvent.cancelledEv ev => OnCancelledOrder s ev
  | VCEvent.execd ev part =>
      if part then OnPartialExecutedOrder s ev else OnTotalExecutedOrder s ev

/-- Apply a sequence of venue callbacks in delivery order. -/
def applyEvents (s : BrokerState) (evs : List VCEvent) : BrokerState :=
  evs.foldl applyEvent s

/-- The statuses of a given order observed through the notification queue:
the statuses of the queued snapshots that carry that venue identifier. -/
def notifStatuses (oid : Nat) (notifs : List (Option BTOrder)) :
    List OrderStatus :=
  notifs.filterMap (fun n =>
    match n with
    | some o => if o.vcorder = some oid then some o.status else Option.none
    | Option.none => Option.none)

/-- A terminal venue event for an order: a total fill or a cancellation. -/
inductive TermKind where
  | totalFill (volume price : ℚ)
  | cancelKind

/-- The callback a terminal event is delivered as. -/
def termEvent (oid : Nat) : TermKind → VCEvent
  | TermKind.totalFill v p =>
      VCEvent.execd { OrderId := oid, Price := p, Volume := v } false
  | TermKind.cancelKind =>
      VCEvent.cancelledEv { OrderId := oid, Price := 0, Volume := 0 }

/-- The status a terminal event drives the order to. -/
def termStatus : TermKind → OrderStatus
  | TermKind.totalFill _ _ => OrderStatus.Completed
  | TermKind.cancelKind => OrderStatus.Cancelled

/-- Partial-fill callbacks for a list of `(volume, price)` fills. -/
def fillEvents (oid : Nat) (fills : List (ℚ × ℚ)) : List VCEvent :=
  fills.map (fun f =>
    VCEvent.execd { OrderId := oid, Price := f.2, Volume := f.1 } true)

/-- A callback sequence in the canonical venue delivery order: an optional
accepted-in-market event, then partial fills, then at most one terminal
event. -/
def canonTrace (oid : Nat) (a : Bool) (fills : List (ℚ × ℚ))
    (term : Option TermKind) : List VCEvent :=
  (if a then [VCEvent.inMarket { OrderId := oid, Price := 0, Volume := 0 }]
   else []) ++ fillEvents oid fills ++ (term.map (termEvent oid)).toList

/-- The status sequence such a canonical callback sequence produces. -/
def canonStatuses (a : Bool) (n : Nat) (term : Option TermKind) :
    List OrderStatus :=
  (if a then [OrderStatus.Accepted] else []) ++
    List.replicate n OrderStatus.PartiallyFilled ++ (term.map termStatus).toList

/-- Drop a leading occurrence of `x`, if present. -/
def dropHead (x : OrderStatus) : List OrderStatus → List OrderStatus
  | [] => []
  | y :: ys => if y = x then ys else y :: ys

/-- Decides whether a status list is a subsequence of the canonical pattern
`Submitted, Accepted, PartiallyFilled*, (Completed | Cancelled)`. -/
def isCanonicalSeq (l : List OrderStatus) : Bool :=
  match (dropHead OrderStatus.Accepted (dropHead OrderStatus.Submitted l)).dropWhile
      (fun x => decide (x = OrderStatus.PartiallyFilled)) with
  | [] => true
  | [st] => decide (st = OrderStatus.Completed) || decide (st = OrderStatus.Cancelled)
  | _ => false

/-- A registered buy order, used to build concrete broker states. -/
def sampleOrder : BTOrder :=
  { ordtype := OrdType.Buy, status := OrderStatus.Submitted,
    comminfo := ciZero, tradename := "ES", dt := 0,
    execs := [], vcorder := some 1 }

/-- A concrete broker state with one registered order under identifier 1. -/
def sampleState : BrokerState :=
  { acc_name := some "ACC1", cash := 1000, value := 1000,
    positions := [], orderbyid := [(1, sampleOrder)], notifs := [],
    resolveComm := fun _ => ciZero }

/-- A concrete broker state with an empty order registry and an empty
notification queue. -/
def emptyState : BrokerState :=
  { acc_name := some "ACC1", cash := 1000, value := 1000,
    positions := [], orderbyid := [], notifs := [],
    resolveComm := fun _ => ciZero }

theorem alookup_asetD_self {α β : Type} [DecidableEq α] (l : List (α × β))
    (k : α) (v : β) : alookup (asetD l k v) k = some v := by
  induction l with
  | nil => simp [asetD, alookup]
  | cons p rest ih =>
    by_cases h : p.1 = k
    · simp [asetD, h, alookup]
    · simp [asetD, h, alookup, ih]

theorem notifStatuses_append (oid : Nat) (l1 l2 : List (Option BTOrder)) :
    notifStatuses oid (l1 ++ l2) =
      notifStatuses oid l1 ++ notifStatuses oid l2 := by
  simp [notifStatuses]

/-- C1: a venue callback carrying an order identifier that was never
inserted into the registry (accepted-in-market, cancelled, partial fill,
total fill) is a silent no-op: the whole broker state — positions, cash,
net worth, order registry and notification queue — is returned unchanged,
and the handlers are total, so no error escapes. -/
theorem C1_unknown_id_noop (s : BrokerState) (ev : VCOrderEvent)
    (h : lookupOrder s ev.OrderId = none) :
    (∀ part : Bool, OnExecutedOrder s ev part = s) ∧
    OnCancelledOrder s ev = s ∧ OnOrderInMarket s ev = s := by
  refine ⟨fun part => ?_, ?_, ?_⟩
  · simp [OnExecutedOrder, h]
  · simp [OnCancelledOrder, h]
  · simp [OnOrderInMarket, h]

theorem C1_unknown_id_noop_witness :
    OnExecutedOrder emptyState { OrderId := 7, Price := 10, Volume := 2 } true
        = emptyState ∧
    OnExecutedOrder emptyState { OrderId := 7, Price := 10, Volume := 2 } false
        = emptyState ∧
    OnCancelledOrder emptyState { OrderId := 7, Price := 10, Volume := 2 }
        = emptyState ∧
    OnOrderInMarket emptyState { OrderId := 7, Price := 10, Volume := 2 }
        = emptyState :=
  ⟨(C1_unknown_id_noop emptyState _ rfl).1 true,
   (C1_unknown_id_noop emptyState _ rfl).1 false,
   (C1_unknown_id_noop emptyState _ rfl).2.1,
   (C1_unknown_id_noop emptyState _ rfl).2.2⟩

/-- C3: when the venue send fails, the failure propagates synchronously out
of `submit` and the broker state is returned exactly as it was: the order
is neither registered in `orderbyid` nor enqueued in `notifs`. -/
theorem C3_submit_failure (s : BrokerState) (order : BTOrder) (vco : PyObj)
    (sendOrder : PyObj → Except VCError Nat) (e : VCError)
    (h : sendOrder vco = Except.error e) :
    brokerSubmit s order vco sendOrder = (Except.error e, s) := by
  simp [brokerSubmit, h]

theorem C3_submit_failure_witness :
    brokerSubmit emptyState sampleOrder vcNewOrder
        (fun _ => Except.error VCError.indexError) =
      (Except.error VCError.indexError, emptyState) :=
  C3_submit_failure emptyState sampleOrder vcNewOrder
    (fun _ => Except.error VCError.indexError) VCError.indexError rfl

/-- C4 counterexample: on an empty notification queue, `get_notification`
does not return an empty/sentinel result — `self.notifs.popleft()` raises
`IndexError`, so the call fails instead of returning. -/
theorem C4_counterexample :
    get_notification emptyState = Except.error VCError.indexError ∧
    ¬ ∃ r : Option BTOrder × BrokerState,
        get_notification emptyState = Except.ok r := by
  refine ⟨rfl, ?_⟩
  rintro ⟨r, hr⟩
  simp [get_notification, emptyState] at hr

/-- C4 amended: `get_notification` is a non-blocking pop-oldest — on a
non-empty queue it removes and returns the oldest entry — but on an empty
queue it raises `IndexError` rather than returning a sentinel; the code
relies on the tick-boundary `None` sentinel appended by `next` to keep the
queue non-empty when polled. -/
theorem C4_amended_popleft (s : BrokerState) :
    (∀ (n : Option BTOrder) (rest : List (Option BTOrder)),
      s.notifs = n :: rest →
        get_notification s = Except.ok (n, { s with notifs := rest })) ∧
    (s.notifs = [] →
        get_notification s = Except.error VCError.indexError) := by
  constructor
  · intro n rest h
    simp [get_notification, h]
  · intro h
    simp [get_notification, h]

theorem C4_amended_popleft_witness :
    get_notification { emptyState with notifs := [some sampleOrder, Option.none] }
        = Except.ok (some sampleOrder, { emptyState with notifs := [Option.none] }) ∧
    get_notification emptyState = Except.error VCError.indexError :=
  ⟨(C4_amended_popleft
      { emptyState with notifs := [some sampleOrder, Option.none] }).1
      (some sampleOrder) [Option.none] rfl,
   (C4_amended_popleft emptyState).2 rfl⟩

/-- C8: a balance-change event whose account differs from the adapter's
selected account returns without mutating anything: cash, net worth,
positions, orders and notifications are all unchanged. -/
theorem C8_balance_isolation (s : BrokerState) (accounts : List VCAccount)
    (acct : String) (h : ¬ s.acc_name = some acct) :
    OnChangedBalance s accounts acct = s := by
  unfold OnChangedBalance
  rw [if_pos (Or.inr h)]

theorem C8_balance_isolation_witness :
    OnChangedBalance sampleState
        [{ Account := "OTHER", Balance := { Cash := 5, NetWorth := 6 } }]
        "OTHER" = sampleState :=
  C8_balance_isolation sampleState
    [{ Account := "OTHER", Balance := { Cash := 5, NetWorth := 6 } }]
    "OTHER" (by decide)

/-- The fill record the claim's formulas prescribe, written from the spec's
words (§4.6 step 2-4): signed fill size = venue volume, negated when the
order is a sell; `priorAvgPrice` = the position's average price captured
before the ledger update (`pos` is the pre-update position);
`closedValue = cost(closed, priorAvgPrice)`,
`closedCommission = commission(closed, fillPrice)`,
`openedValue = cost(opened, fillPrice)`,
`openedCommission = commission(opened, fillPrice)`,
`pnl = profitAndLoss(-closed, priorAvgPrice, fillPrice)`,
`marginEquivalent = valueSize(fillSize, fillPrice)` — all via the order's
attached commission strategy. -/
def specFillRecord (border : BTOrder) (pos : Position)
    (volume fillPrice : ℚ) : ExecRecord :=
  let fillSize := if border.issell then -volume else volume
  let u := pos.update fillSize fillPrice
  { dt := border.dt, size := fillSize, price := fillPrice,
    closed := u.closed,
    closedvalue := border.comminfo.getoperationcost u.closed pos.price,
    closedcomm := border.comminfo.getcommission u.closed fillPrice,
    opened := u.opened,
    openedvalue := border.comminfo.getoperationcost u.opened fillPrice,
    openedcomm := border.comminfo.getcommission u.opened fillPrice,
    margin := border.comminfo.getvaluesize fillSize fillPrice,
    pnl := border.comminfo.profitandloss (-u.closed) pos.price fillPrice,
    psize := u.psize, pprice := u.pprice }

/-- C2: on a registry hit, a partial- or total-execution callback appends
to the order (and enqueues as the new notification) exactly the fill record
prescribed by the claim's formulas, and re-registers the updated order
under its identifier. -/
theorem C2_exec_accounting (s : BrokerState) (ev : VCOrderEvent)
    (part : Bool) (border : BTOrder)
    (h : lookupOrder s ev.OrderId = some border) :
    (OnExecutedOrder s ev part).notifs =
      s.notifs ++ [some ((border.execute
        (specFillRecord border (getPositionFor s border.tradename)
          ev.Volume ev.Price)).setStatus
        (if part then OrderStatus.PartiallyFilled else OrderStatus.Completed))] ∧
    lookupOrder (OnExecutedOrder s ev part) ev.OrderId =
      some ((border.execute
        (specFillRecord border (getPositionFor s border.tradename)
          ev.Volume ev.Price)).setStatus
        (if part then OrderStatus.PartiallyFilled else OrderStatus.Completed)) := by
  have h2 : alookup s.orderbyid ev.OrderId = some border := h
  constructor
  · simp [OnExecutedOrder, lookupOrder, h2, specFillRecord, notifyOrder,
      setOrder, setPosition]
  · simp [OnExecutedOrder, lookupOrder, h2, specFillRecord, notifyOrder,
      setOrder, setPosition, alookup_asetD_self]

theorem C2_exec_accounting_witness :
    (OnExecutedOrder sampleState { OrderId := 1, Price := 10, Volume := 2 }
        true).notifs =
      sampleState.notifs ++ [some ((sampleOrder.execute
        (specFillRecord sampleOrder
          (getPositionFor sampleState sampleOrder.tradename) 2 10)).setStatus
        OrderStatus.PartiallyFilled)] :=
  (C2_exec_accounting sampleState { OrderId := 1, Price := 10, Volume := 2 }
    true sampleOrder rfl).1

/-- C6: a "close" order kind always forces the close-auction time
restriction on the venue request, regardless of the caller-supplied
validity value (and of every other order-intent field). -/
theorem C6_close_forces_close_auction (acc : Option String)
    (ordtype : OrdType) (tradename : String) (size : ℚ)
    (price plimit : Option ℚ) (valid : Validity) (tradeid : Nat) (now : ℚ) :
    (makeorder acc ordtype tradename size price plimit ExecType.Close valid
        tradeid [] now).map (fun o => pyGetattr o "TimeRestriction") =
      Except.ok (some (PyVal.trc TRCode.CloseAuction)) :=
  rfl

/-- C7: for a non-close order intent, a `date`/`datetime` validity maps to
the date-restriction code with that value as valid-until; a duration equal
to the one-trading-day constant maps to the day-restriction code with no
valid-until date; any other duration maps to the date-restriction code with
valid-until = current time plus the duration; a `None` validity maps to the
no-restriction code. -/
theorem C7_validity_mapping (acc : Option String) (ordtype : OrdType)
    (tradename : String) (size : ℚ) (price plimit : Option ℚ)
    (tradeid : Nat) (now : ℚ) (et : ExecType) (h : ¬ et = ExecType.Close) :
    ((makeorder acc ordtype tradename size price plimit et Validity.vnone
        tradeid [] now).map (fun o => pyGetattr o "TimeRestriction") =
      Except.ok (some (PyVal.trc TRCode.NoRestriction))) ∧
    (∀ d : ℚ,
      (makeorder acc ordtype tradename size price plimit et (Validity.vdate d)
          tradeid [] now).map (fun o =>
            (pyGetattr o "TimeRestriction", pyGetattr o "ValidDate")) =
        Except.ok (some (PyVal.trc TRCode.Date), some (PyVal.pdate d))) ∧
    ((makeorder acc ordtype tradename size price plimit et
        (Validity.vdelta OrderDAY) tradeid [] now).map (fun o =>
          (pyGetattr o "TimeRestriction", pyGetattr o "ValidDate")) =
      Except.ok (some (PyVal.trc TRCode.Session), some PyVal.none)) ∧
    (∀ t : ℚ, ¬ t = OrderDAY →
      (makeorder acc ordtype tradename size price plimit et (Validity.vdelta t)
          tradeid [] now).map (fun o =>
            (pyGetattr o "TimeRestriction", pyGetattr o "ValidDate")) =
        Except.ok (some (PyVal.trc TRCode.Date), some (PyVal.pdate (now + t)))) := by
  cases et with
  | Close => exact absurd rfl h
  | Market =>
    refine ⟨rfl, fun d => rfl, rfl, fun t ht => ?_⟩
    simp only [makeorder, timeRestOf, ht]
    rfl
  | Limit =>
    refine ⟨rfl, fun d => rfl, rfl, fun t ht => ?_⟩
    simp only [makeorder, timeRestOf, ht]
    rfl
  | Stop =>
    refine ⟨rfl, fun d => rfl, rfl, fun t ht => ?_⟩
    simp only [makeorder, timeRestOf, ht]
    rfl
  | StopLimit =>
    refine ⟨rfl, fun d => rfl, rfl, fun t ht => ?_⟩
    simp only [makeorder, timeRestOf, ht]
    rfl

theorem C7_validity_mapping_witness :
    ((makeorder (some "ACC1") OrdType.Buy "ES" 3 Option.none Option.none
        ExecType.Market Validity.vnone 0 [] 100).map
          (fun o => pyGetattr o "TimeRestriction") =
      Except.ok (some (PyVal.trc TRCode.NoRestriction))) ∧
    ((makeorder (some "ACC1") OrdType.Buy "ES" 3 Option.none Option.none
        ExecType.Market (Validity.vdate 7) 0 [] 100).map (fun o =>
          (pyGetattr o "TimeRestriction", pyGetattr o "ValidDate")) =
      Except.ok (some (PyVal.trc TRCode.Date), some (PyVal.pdate 7))) ∧
    ((makeorder (some "ACC1") OrdType.Buy "ES" 3 Option.none Option.none
        ExecType.Market (Validity.vdelta OrderDAY) 0 [] 100).map (fun o =>
          (pyGetattr o "TimeRestriction", pyGetattr o "ValidDate")) =
      Except.ok (some (PyVal.trc TRCode.Session), some PyVal.none)) ∧
    ((makeorder (some "ACC1") OrdType.Buy "ES" 3 Option.none Option.none
        ExecType.Market (Validity.vdelta 5) 0 [] 100).map (fun o =>
          (pyGetattr o "TimeRestriction", pyGetattr o "ValidDate")) =
      Except.ok (some (PyVal.trc TRCode.Date), some (PyVal.pdate (100 + 5)))) :=
  ⟨(C7_validity_mapping (some "ACC1") OrdType.Buy "ES" 3 Option.none
      Option.none 0 100 ExecType.Market (by decide)).1,
   (C7_validity_mapping (some "ACC1") OrdType.Buy "ES" 3 Option.none
      Option.none 0 100 ExecType.Market (by decide)).2.1 7,
   (C7_validity_mapping (some "ACC1") OrdType.Buy "ES" 3 Option.none
      Option.none 0 100 ExecType.Market (by decide)).2.2.1,
   (C7_validity_mapping (some "ACC1") OrdType.Buy "ES" 3 Option.none
      Option.none 0 100 ExecType.Market (by decide)).2.2.2 5 (by
        rw [OrderDAY]
        norm_num)⟩

/-- C10: for a non-close order intent whose validity is neither `None`,
nor a date/datetime, nor a timedelta (for example an integer), the
translator falls to the `elif not self.valid` branch, which reads an
attribute `valid` that the broker never defines, so `_makeorder` — and
therefore `buy` and `sell` — raises `AttributeError` instead of producing
a venue request, leaving the broker state untouched. -/
theorem C10_validity_fallback_raises (acc : Option String)
    (ordtype : OrdType) (tradename : String) (size : ℚ)
    (price plimit : Option ℚ) (tradeid : Nat) (now : ℚ) (s : BrokerState)
    (data : VCData) (sendOrder : PyObj → Except VCError Nat)
    (et : ExecType) (h : ¬ et = ExecType.Close) :
    makeorder acc ordtype tradename size price plimit et Validity.vother
        tradeid [] now = Except.error VCError.attributeError ∧
    brokerBuy s data size price plimit et Validity.vother tradeid [] now
        sendOrder = (Except.error VCError.attributeError, s) ∧
    brokerSell s data size price plimit et Validity.vother tradeid [] now
        sendOrder = (Except.error VCError.attributeError, s) := by
  cases et with
  | Close => exact absurd rfl h
  | Market => exact ⟨rfl, rfl, rfl⟩
  | Limit => exact ⟨rfl, rfl, rfl⟩
  | Stop => exact ⟨rfl, rfl, rfl⟩
  | StopLimit => exact ⟨rfl, rfl, rfl⟩

theorem C10_validity_fallback_raises_witness :
    makeorder (some "ACC1") OrdType.Buy "ES" 3 Option.none Option.none
        ExecType.Market Validity.vother 0 [] 100 =
      Except.error VCError.attributeError ∧
    brokerBuy emptyState { tradename := "ES", dt := 0 } 3 Option.none
        Option.none ExecType.Market Validity.vother 0 [] 100
        (fun _ => Except.ok 1) =
      (Except.error VCError.attributeError, emptyState) :=
  ⟨(C10_validity_fallback_raises (some "ACC1") OrdType.Buy "ES" 3 Option.none
      Option.none 0 100 emptyState { tradename := "ES", dt := 0 }
      (fun _ => Except.ok 1) ExecType.Market (by decide)).1,
   (C10_validity_fallback_raises emptyState.acc_name OrdType.Buy "ES" 3
      Option.none Option.none 0 100 emptyState { tradename := "ES", dt := 0 }
      (fun _ => Except.ok 1) ExecType.Market (by decide)).2.1⟩

theorem pyGetattr_pySetattr (o : PyObj) (k k2 : String) (v : PyVal) :
    pyGetattr (pySetattr o k v) k2 =
      if k = k2 ∧ pyHasattr o k2 = true then some v else pyGetattr o k2 := by
  induction o with
  | nil => simp [pySetattr, pyGetattr, pyHasattr, alookup]
  | cons p rest ih =>
    by_cases h1 : p.1 = k
    · by_cases h2 : k = k2
      · simp [pySetattr, pyGetattr, pyHasattr, alookup, h1, h2]
      · have h3 : ¬ p.1 = k2 := by rw [h1]; exact h2
        simp only [pySetattr, pyGetattr, pyHasattr, alookup, List.map_cons,
          if_pos h1, if_neg h2, if_neg h3] at ih ⊢
        exact ih
    · by_cases h3 : p.1 = k2
      · have h4 : ¬ k = k2 := fun hk => h1 (h3.trans hk.symm)
        have h5 : ¬ k2 = k := fun hk => h4 hk.symm
        simp [pySetattr, pyGetattr, pyHasattr, alookup, h1, h3, h4, h5]
      · simp only [pySetattr, pyGetattr, pyHasattr, alookup, List.map_cons,
          if_neg h1, if_neg h3] at ih ⊢
        exact ih

theorem pyHasattr_pySetattr (o : PyObj) (k k2 : String) (v : PyVal) :
    pyHasattr (pySetattr o k v) k2 = pyHasattr o k2 := by
  unfold pyHasattr
  rw [pyGetattr_pySetattr]
  split
  · next h =>
      have h2 : (pyGetattr o k2).isSome = true := h.2
      simp [h2]
  · rfl

theorem applyKwargs_cons (o : PyObj) (kv : String × PyVal)
    (rest : List (String × PyVal)) :
    applyKwargs o (kv :: rest) =
      applyKwargs (if pyHasattr o kv.1 then pySetattr o kv.1 kv.2 else o)
        rest :=
  rfl

theorem pyHasattr_applyKwargs (kwargs : List (String × PyVal)) :
    ∀ (o : PyObj) (k : String),
      pyHasattr (applyKwargs o kwargs) k = pyHasattr o k := by
  induction kwargs with
  | nil => intro o k; rfl
  | cons kv rest ih =>
    intro o k
    rw [applyKwargs_cons, ih]
    by_cases h : pyHasattr o kv.1 = true
    · rw [if_pos h, pyHasattr_pySetattr]
    · rw [if_neg h]

theorem pyGetattr_applyKwargs (kwargs : List (String × PyVal)) :
    ∀ (o : PyObj) (k : String),
      pyGetattr (applyKwargs o kwargs) k =
        match lastVal kwargs k with
        | some v => if pyHasattr o k = true then some v else Option.none
        | Option.none => pyGetattr o k := by
  induction kwargs with
  | nil => intro o k; rfl
  | cons kv rest ih =>
    intro o k
    rw [applyKwargs_cons, ih]
    cases hl : lastVal rest k with
    | some v =>
      by_cases h : pyHasattr o kv.1 = true
      · simp [lastVal, hl, if_pos h, pyHasattr_pySetattr]
      · simp [lastVal, hl, if_neg h]
    | none =>
      by_cases hk : kv.1 = k
      · subst hk
        by_cases h : pyHasattr o kv.1 = true
        · simp [lastVal, hl, if_pos h, pyGetattr_pySetattr, h]
        · have hnone : pyGetattr o kv.1 = Option.none := by
            unfold pyHasattr at h
            cases hg : pyGetattr o kv.1 with
            | some w => rw [hg] at h; simp at h
            | none => rfl
          simp [lastVal, hl, if_neg h, hnone, h]
      · by_cases h : pyHasattr o kv.1 = true
        · simp [lastVal, hl, if_pos h, pyGetattr_pySetattr, hk]
        · simp [lastVal, hl, if_neg h, hk]

/-- C9: the keyword-extras stage applies a supplied field to the venue
request exactly when the request already defines an attribute of that name
(the last supplied value for a defined name wins); unknown names are
silently dropped — the attribute set never changes, no failure is possible
(the stage is a total function), and fields without a supplied keyword are
left untouched.  The last conjunct ties the stage to the translator:
`_makeorder` with extras is `_makeorder` without extras followed by the
extras stage. -/
theorem C9_kwargs_schema_checked (o : PyObj) (kwargs : List (String × PyVal))
    (k : String) :
    pyHasattr (applyKwargs o kwargs) k = pyHasattr o k ∧
    pyGetattr (applyKwargs o kwargs) k =
      (match lastVal kwargs k with
       | some v => if pyHasattr o k = true then some v else Option.none
       | Option.none => pyGetattr o k) ∧
    (∀ (acc : Option String) (ordtype : OrdType) (tradename : String)
       (size : ℚ) (price plimit : Option ℚ) (et : ExecType)
       (valid : Validity) (tradeid : Nat) (now : ℚ),
      makeorder acc ordtype tradename size price plimit et valid tradeid
          kwargs now =
        (makeorder acc ordtype tradename size price plimit et valid tradeid
            [] now).map (fun o2 => applyKwargs o2 kwargs)) := by
  refine ⟨pyHasattr_applyKwargs kwargs o k, pyGetattr_applyKwargs kwargs o k, ?_⟩
  intro acc ordtype tradename size price plimit et valid tradeid now
  unfold makeorder
  rcases h : timeRestOf et valid now with e | tr
  · rfl
  · rfl

theorem notifStatuses_snoc_hit (oid : Nat) (l : List (Option BTOrder))
    (b : BTOrder) (h : b.vcorder = some oid) :
    notifStatuses oid (l ++ [some b]) = notifStatuses oid l ++ [b.status] := by
  simp [notifStatuses, h]

theorem lookupOrder_setOrder (s : BrokerState) (oid : Nat) (b2 : BTOrder) :
    lookupOrder (setOrder s oid b2) oid = some b2 :=
  alookup_asetD_self s.orderbyid oid b2

theorem OnOrderInMarket_step (s : BrokerState) (ev : VCOrderEvent)
    (b : BTOrder) (h : lookupOrder s ev.OrderId = some b)
    (hv : b.vcorder = some ev.OrderId) :
    notifStatuses ev.OrderId (OnOrderInMarket s ev).notifs =
      notifStatuses ev.OrderId s.notifs ++ [OrderStatus.Accepted] ∧
    lookupOrder (OnOrderInMarket s ev) ev.OrderId =
      some (b.setStatus OrderStatus.Accepted) ∧
    (b.setStatus OrderStatus.Accepted).vcorder = some ev.OrderId := by
  have h2 : alookup s.orderbyid ev.OrderId = some b := h
  refine ⟨?_, ?_, hv⟩
  · simp [OnOrderInMarket, lookupOrder, h2, notifyOrder, setOrder,
      notifStatuses, BTOrder.setStatus, hv]
  · simp [OnOrderInMarket, lookupOrder, h2, notifyOrder, setOrder,
      alookup_asetD_self, BTOrder.setStatus]

theorem OnCancelledOrder_step (s : BrokerState) (ev : VCOrderEvent)
    (b : BTOrder) (h : lookupOrder s ev.OrderId = some b)
    (hv : b.vcorder = some ev.OrderId) :
    notifStatuses ev.OrderId (OnCancelledOrder s ev).notifs =
      notifStatuses ev.OrderId s.notifs ++ [OrderStatus.Cancelled] ∧
    lookupOrder (OnCancelledOrder s ev) ev.OrderId =
      some (b.setStatus OrderStatus.Cancelled) ∧
    (b.setStatus OrderStatus.Cancelled).vcorder = some ev.OrderId := by
  have h2 : alookup s.orderbyid ev.OrderId = some b := h
  refine ⟨?_, ?_, hv⟩
  · simp [OnCancelledOrder, lookupOrder, h2, notifyOrder, setOrder,
      notifStatuses, BTOrder.setStatus, hv]
  · simp [OnCancelledOrder, lookupOrder, h2, notifyOrder, setOrder,
      alookup_asetD_self, BTOrder.setStatus]

theorem OnExecutedOrder_step (s : BrokerState) (ev : VCOrderEvent)
    (part : Bool) (b : BTOrder) (h : lookupOrder s ev.OrderId = some b)
    (hv : b.vcorder = some ev.OrderId) :
    notifStatuses ev.OrderId (OnExecutedOrder s ev part).notifs =
      notifStatuses ev.OrderId s.notifs ++
        [if part then OrderStatus.PartiallyFilled else OrderStatus.Completed] ∧
    ∃ b2 : BTOrder,
      lookupOrder (OnExecutedOrder s ev part) ev.OrderId = some b2 ∧
      b2.vcorder = some ev.OrderId := by
  have h2 : alookup s.orderbyid ev.OrderId = some b := h
  constructor
  · simp [OnExecutedOrder, lookupOrder, h2, notifyOrder, setOrder,
      setPosition, notifStatuses, BTOrder.setStatus, BTOrder.execute, hv]
  · refine ⟨(b.execute (specFillRecord b (getPositionFor s b.tradename)
      ev.Volume ev.Price)).setStatus
      (if part then OrderStatus.PartiallyFilled else OrderStatus.Completed),
      ?_, hv⟩
    simp [OnExecutedOrder, lookupOrder, h2, notifyOrder, setOrder,
      setPosition, specFillRecord, alookup_asetD_self]

theorem fills_trace (oid : Nat) (fills : List (ℚ × ℚ)) :
    ∀ (s : BrokerState) (b : BTOrder),
      lookupOrder s oid = some b → b.vcorder = some oid →
      notifStatuses oid (applyEvents s (fillEvents oid fills)).notifs =
        notifStatuses oid s.notifs ++
          List.replicate fills.length OrderStatus.PartiallyFilled ∧
      ∃ b2 : BTOrder,
        lookupOrder (applyEvents s (fillEvents oid fills)) oid = some b2 ∧
        b2.vcorder = some oid := by
  induction fills with
  | nil =>
    intro s b h hv
    exact ⟨by simp [applyEvents, fillEvents], b, h, hv⟩
  | cons f rest ih =>
    intro s b h hv
    obtain ⟨hn, b2, hl2, hv2⟩ :=
      OnExecutedOrder_step s { OrderId := oid, Price := f.2, Volume := f.1 }
        true b h hv
    obtain ⟨hn2, b3, hl3, hv3⟩ :=
      ih (OnExecutedOrder s { OrderId := oid, Price := f.2, Volume := f.1 }
        true) b2 hl2 hv2
    have hunroll : applyEvents s (fillEvents oid (f :: rest)) =
        applyEvents
          (OnExecutedOrder s { OrderId := oid, Price := f.2, Volume := f.1 }
            true) (fillEvents oid rest) := rfl
    refine ⟨?_, b3, ?_, hv3⟩
    · rw [hunroll, hn2, hn]
      simp [List.replicate_succ]
    · rw [hunroll]
      exact hl3

theorem term_step (oid : Nat) (term : Option TermKind) (s : BrokerState)
    (b : BTOrder) (h : lookupOrder s oid = some b)
    (hv : b.vcorder = some oid) :
    notifStatuses oid
        (applyEvents s ((term.map (termEvent oid)).toList)).notifs =
      notifStatuses oid s.notifs ++ (term.map termStatus).toList := by
  cases term with
  | none => simp [applyEvents]
  | some tk =>
    cases tk with
    | totalFill v p =>
      have hstep := (OnExecutedOrder_step s
        { OrderId := oid, Price := p, Volume := v } false b h hv).1
      simpa [applyEvents, applyEvent, termEvent, termStatus,
        OnTotalExecutedOrder] using hstep
    | cancelKind =>
      have hstep := (OnCancelledOrder_step s
        { OrderId := oid, Price := 0, Volume := 0 } b h hv).1
      simpa [applyEvents, applyEvent, termEvent, termStatus] using hstep

theorem dropWhileRepl (p : OrderStatus → Bool) (x : OrderStatus)
    (hp : p x = true) (n : Nat) (l : List OrderStatus) :
    List.dropWhile p (List.replicate n x ++ l) = List.dropWhile p l := by
  induction n with
  | zero => simp
  | succ m ih => simp [List.replicate_succ, List.dropWhile_cons, hp, ih]

theorem dropHead_cons_self (x : OrderStatus) (l : List OrderStatus) :
    dropHead x (x :: l) = l := by
  simp [dropHead]

theorem dropHead_cons_ne (x y : OrderStatus) (l : List OrderStatus)
    (h : ¬ y = x) : dropHead x (y :: l) = y :: l := by
  simp [dropHead, h]

theorem canonStatuses_canonical (a : Bool) (n : Nat) (term : Option TermKind) :
    isCanonicalSeq (OrderStatus.Submitted :: canonStatuses a n term) = true := by
  have htail : List.dropWhile (fun x => decide (x = OrderStatus.PartiallyFilled))
      ((term.map termStatus).toList) = (term.map termStatus).toList := by
    cases term with
    | none => rfl
    | some tk => cases tk <;> rfl
  have hfin : ∀ t : Option TermKind,
      (match (t.map termStatus).toList with
       | [] => true
       | [st] => decide (st = OrderStatus.Completed) ||
           decide (st = OrderStatus.Cancelled)
       | _ => false) = true := by
    intro t
    cases t with
    | none => rfl
    | some tk => cases tk <;> rfl
  cases a with
  | true =>
    have hc : OrderStatus.Submitted :: canonStatuses true n term =
        OrderStatus.Submitted :: OrderStatus.Accepted ::
          (List.replicate n OrderStatus.PartiallyFilled ++
            (term.map termStatus).toList) := by
      simp [canonStatuses]
    rw [hc]
    unfold isCanonicalSeq
    rw [dropHead_cons_self, dropHead_cons_self]
    rw [dropWhileRepl (fun x => decide (x = OrderStatus.PartiallyFilled))
      OrderStatus.PartiallyFilled (by decide) n ((term.map termStatus).toList)]
    rw [htail]
    exact hfin term
  | false =>
    have hc : OrderStatus.Submitted :: canonStatuses false n term =
        OrderStatus.Submitted ::
          (List.replicate n OrderStatus.PartiallyFilled ++
            (term.map termStatus).toList) := by
      simp [canonStatuses]
    rw [hc]
    unfold isCanonicalSeq
    rw [dropHead_cons_self]
    cases n with
    | zero =>
      cases term with
      | none => rfl
      | some tk => cases tk <;> rfl
    | succ m =>
      have hr : List.replicate (m + 1) OrderStatus.PartiallyFilled ++
          (term.map termStatus).toList =
          OrderStatus.PartiallyFilled ::
            (List.replicate m OrderStatus.PartiallyFilled ++
              (term.map termStatus).toList) := by
        simp [List.replicate_succ]
      rw [hr, dropHead_cons_ne _ _ _ (by decide), ← hr]
      rw [dropWhileRepl (fun x => decide (x = OrderStatus.PartiallyFilled))
        OrderStatus.PartiallyFilled (by decide) (m + 1)
        ((term.map termStatus).toList)]
      rw [htail]
      exact hfin term

/-- C5 counterexample: statuses are not monotonic.  With a registered order
(identifier 1, status Submitted), a total-fill callback drives it to the
terminal status Completed; a subsequent accepted-in-market callback for the
same identifier then moves it back to Accepted (the handler sets the status
unconditionally on a registry hit), and the notification queue exposes the
regressed sequence Completed, Accepted — not a subsequence of
`Submitted, Accepted, PartiallyFilled*, (Completed|Cancelled)`. -/
theorem C5_counterexample_regression :
    (lookupOrder (OnExecutedOrder sampleState
        { OrderId := 1, Price := 10, Volume := 2 } false) 1).map
        BTOrder.status = some OrderStatus.Completed ∧
    (lookupOrder (OnOrderInMarket (OnExecutedOrder sampleState
        { OrderId := 1, Price := 10, Volume := 2 } false)
        { OrderId := 1, Price := 0, Volume := 0 }) 1).map
        BTOrder.status = some OrderStatus.Accepted ∧
    notifStatuses 1 (OnOrderInMarket (OnExecutedOrder sampleState
        { OrderId := 1, Price := 10, Volume := 2 } false)
        { OrderId := 1, Price := 0, Volume := 0 }).notifs =
      [OrderStatus.Completed, OrderStatus.Accepted] ∧
    isCanonicalSeq [OrderStatus.Submitted, OrderStatus.Completed,
      OrderStatus.Accepted] = false :=
  ⟨rfl, rfl, rfl, rfl⟩

/-- C5 amended: each handler overwrites the status unconditionally on a
registry hit, so monotonicity holds only for callbacks arriving in the
canonical venue order.  For a registered order and a callback sequence of
the shape (optional accepted-in-market) then partial fills then at most one
terminal event (total fill or cancellation), the statuses observed through
the notification queue are exactly Accepted?, PartiallyFilled*,
(Completed|Cancelled)?, and together with the Submitted notification from
submission they form a subsequence of the canonical pattern; an
accepted-in-market callback delivered after a terminal callback instead
regresses the order to Accepted. -/
theorem C5_amended_canonical_delivery (s : BrokerState) (oid : Nat)
    (border : BTOrder) (a : Bool) (fills : List (ℚ × ℚ))
    (term : Option TermKind)
    (h1 : lookupOrder s oid = some border) (h2 : border.vcorder = some oid) :
    notifStatuses oid (applyEvents s (canonTrace oid a fills term)).notifs =
      notifStatuses oid s.notifs ++ canonStatuses a fills.length term ∧
    isCanonicalSeq (OrderStatus.Submitted ::
      canonStatuses a fills.length term) = true := by
  refine ⟨?_, canonStatuses_canonical a fills.length term⟩
  cases a with
  | false =>
    have happ : applyEvents s (canonTrace oid false fills term) =
        applyEvents (applyEvents s (fillEvents oid fills))
          ((term.map (termEvent oid)).toList) := by
      simp [canonTrace, applyEvents, List.foldl_append]
    rw [happ]
    obtain ⟨hn, b2, hl2, hv2⟩ := fills_trace oid fills s border h1 h2
    rw [term_step oid term _ b2 hl2 hv2, hn]
    simp [canonStatuses]
  | true =>
    have happ : applyEvents s (canonTrace oid true fills term) =
        applyEvents (applyEvents (OnOrderInMarket s
            { OrderId := oid, Price := 0, Volume := 0 })
          (fillEvents oid fills)) ((term.map (termEvent oid)).toList) := by
      simp [canonTrace, applyEvents, List.foldl_append, applyEvent]
    rw [happ]
    obtain ⟨hn0, hl0, hv0⟩ := OnOrderInMarket_step s
      { OrderId := oid, Price := 0, Volume := 0 } border h1 h2
    obtain ⟨hn, b2, hl2, hv2⟩ := fills_trace oid fills
      (OnOrderInMarket s { OrderId := oid, Price := 0, Volume := 0 })
      (border.setStatus OrderStatus.Accepted) hl0 hv0
    rw [term_step oid term _ b2 hl2 hv2, hn, hn0]
    simp [canonStatuses]

theorem C5_amended_canonical_delivery_witness :
    notifStatuses 1 (applyEvents sampleState (canonTrace 1 true [(2, 10)]
        (some (TermKind.totalFill 3 11)))).notifs =
      notifStatuses 1 sampleState.notifs ++
        canonStatuses true 1 (some (TermKind.totalFill 3 11)) ∧
    isCanonicalSeq (OrderStatus.Submitted ::
      canonStatuses true 1 (some (TermKind.totalFill 3 11))) = true :=
  C5_amended_canonical_delivery sampleState 1 sampleOrder true [(2, 10)]
    (some (TermKind.totalFill 3 11)) rfl rfl
